/-
Verification of the Third Eye MCP bridge against its specification.

The definitions below are shallow embeddings of the TypeScript sources:
  - mcp-bridge/src/session-manager.ts (SessionManager, encryption utilities)
  - mcp-bridge/src/eyes.ts (extractEnvelope, ensureContext, coalesceContext,
    callEye, the third-eye/oversee input schema)
plus, where the repository ships only a description of a server-side
component, a definition explicitly modelled from the specification text.

Buffers are modelled as lists of bytes, JavaScript values as a small JSON
value type, machine time as an integer number of milliseconds, and the
module-level Map objects of the session manager as association lists.
-/
import Mathlib

/-! ## Encryption serialization (session-manager.ts, encryption utilities) -/

/-- Byte-length constants from session-manager.ts (SALT_LENGTH and friends). -/
def SALT_LENGTH : Nat := 32

/-- IV length in bytes (96 bits for GCM). -/
def IV_LENGTH : Nat := 12

/-- Authentication tag length in bytes. -/
def TAG_LENGTH : Nat := 16

/-- The EncryptedData record of session-manager.ts; each Buffer is a byte list. -/
structure EncryptedData where
  encrypted : List Nat
  iv : List Nat
  salt : List Nat
  tag : List Nat
deriving DecidableEq, Repr

/-- serializeEncrypted: concatenation in the order salt, iv, tag, encrypted. -/
def serializeEncrypted (data : EncryptedData) : List Nat :=
  data.salt ++ data.iv ++ data.tag ++ data.encrypted

/-- deserializeEncrypted: length check, then split at offsets 32, 44, 60. -/
def deserializeEncrypted (buffer : List Nat) : Except String EncryptedData :=
  if buffer.length < SALT_LENGTH + IV_LENGTH + TAG_LENGTH then
    .error "Invalid encrypted data: buffer too short"
  else
    let salt := buffer.take SALT_LENGTH
    let rest1 := buffer.drop SALT_LENGTH
    let iv := rest1.take IV_LENGTH
    let rest2 := rest1.drop IV_LENGTH
    let tag := rest2.take TAG_LENGTH
    let encrypted := rest2.drop TAG_LENGTH
    .ok ⟨encrypted, iv, salt, tag⟩

/-- C9: on well-sized fields, deserialize inverts serialize, and the
buffer-too-short error occurs exactly on buffers shorter than 60 bytes. -/
theorem deserialize_serialize_roundtrip (d : EncryptedData)
    (hs : d.salt.length = SALT_LENGTH) (hi : d.iv.length = IV_LENGTH)
    (ht : d.tag.length = TAG_LENGTH) :
    deserializeEncrypted (serializeEncrypted d) = .ok d ∧
    ∀ buffer : List Nat,
      (deserializeEncrypted buffer = .error "Invalid encrypted data: buffer too short")
        ↔ buffer.length < SALT_LENGTH + IV_LENGTH + TAG_LENGTH := by
  constructor
  · have hlen : (serializeEncrypted d).length =
        SALT_LENGTH + IV_LENGTH + TAG_LENGTH + d.encrypted.length := by
      simp [serializeEncrypted, hs, hi, ht]; omega
    have hnotshort : ¬ (serializeEncrypted d).length <
        SALT_LENGTH + IV_LENGTH + TAG_LENGTH := by omega
    have hser : serializeEncrypted d = d.salt ++ (d.iv ++ (d.tag ++ d.encrypted)) := by
      simp [serializeEncrypted]
    have htake1 : (serializeEncrypted d).take SALT_LENGTH = d.salt := by
      rw [hser, ← hs, List.take_left]
    have hdrop1 : (serializeEncrypted d).drop SALT_LENGTH = d.iv ++ (d.tag ++ d.encrypted) := by
      rw [hser, ← hs, List.drop_left]
    have htake2 : List.take IV_LENGTH (d.iv ++ (d.tag ++ d.encrypted)) = d.iv := by
      rw [← hi, List.take_left]
    have hdrop2 : List.drop IV_LENGTH (d.iv ++ (d.tag ++ d.encrypted)) =
        d.tag ++ d.encrypted := by rw [← hi, List.drop_left]
    have htake3 : List.take TAG_LENGTH (d.tag ++ d.encrypted) = d.tag := by
      rw [← ht, List.take_left]
    have hdrop3 : List.drop TAG_LENGTH (d.tag ++ d.encrypted) = d.encrypted := by
      rw [← ht, List.drop_left]
    simp only [deserializeEncrypted, if_neg hnotshort, htake1, hdrop1, htake2, hdrop2,
      htake3, hdrop3]
  · intro buffer
    by_cases h : buffer.length < SALT_LENGTH + IV_LENGTH + TAG_LENGTH
    · simp [deserializeEncrypted, h]
    · simp [deserializeEncrypted, h]

/-- Witness for the roundtrip theorem at concrete byte lists. -/
theorem deserialize_serialize_roundtrip_witness :
    deserializeEncrypted (serializeEncrypted
      ⟨[9, 9, 9], List.replicate 12 1, List.replicate 32 0, List.replicate 16 2⟩) =
      .ok ⟨[9, 9, 9], List.replicate 12 1, List.replicate 32 0, List.replicate 16 2⟩ :=
  (deserialize_serialize_roundtrip
    ⟨[9, 9, 9], List.replicate 12 1, List.replicate 32 0, List.replicate 16 2⟩
    (by decide) (by decide) (by decide)).1

/-! ## JavaScript value model -/

/-- JSON-style JavaScript values. Numbers are modelled as integers (all the
numeric code under verification compares against whole-number bounds). -/
inductive Json where
  | null
  | bool (b : Bool)
  | num (n : Int)
  | str (s : String)
  | arr (elements : List Json)
  | obj (fields : List (String × Json))

/-- Property lookup on a record value (first binding of the key wins). -/
def lookupA {α : Type} : List (String × α) → String → Option α
  | [], _ => none
  | (k2, v) :: rest, k => if k2 = k then some v else lookupA rest k

/-- The keys of a record value, in order. -/
def keysOf {α : Type} (m : List (String × α)) : List String :=
  m.map Prod.fst

/-- Map.set semantics: replace the binding in place, or append a new one. -/
def setA {α : Type} : List (String × α) → String → α → List (String × α)
  | [], k, v => [(k, v)]
  | (k2, v2) :: rest, k, v =>
      if k2 = k then (k2, v) :: rest else (k2, v2) :: setA rest k v

/-- Map.delete semantics: drop the first binding of the key. -/
def delA {α : Type} : List (String × α) → String → List (String × α)
  | [], _ => []
  | (k2, v2) :: rest, k => if k2 = k then rest else (k2, v2) :: delA rest k

/-- JavaScript truthiness on the modelled values. -/
def truthy : Json → Bool
  | .null => false
  | .bool b => b
  | .num n => decide (n ≠ 0)
  | .str s => decide (s ≠ "")
  | .arr _ => true
  | .obj _ => true

/-- Whether `typeof v` is the string "object" (true for null, arrays, objects). -/
def typeofIsObject : Json → Bool
  | .null => true
  | .arr _ => true
  | .obj _ => true
  | _ => false

/-- Decimal-integer fragment of the Number() string coercion: trimmed empty
string is 0, an optionally signed run of digits parses, anything else is NaN
(returned as none). -/
def parseJsNumber (s : String) : Option Int :=
  let t := s.trim
  if t = "" then some 0
  else if t.startsWith "-" then ((t.drop 1).toNat?).map (fun n => -(n : Int))
  else if t.startsWith "+" then ((t.drop 1).toNat?).map (fun n => (n : Int))
  else (t.toNat?).map (fun n => (n : Int))

mutual
/-- String conversion used when an array is coerced by join (null becomes
the empty string there, matching Array.prototype.join). -/
def jsElemString : Json → String
  | .null => ""
  | .bool b => if b then "true" else "false"
  | .num n => toString n
  | .str s => s
  | .arr xs => jsListString xs
  | .obj _ => "[object Object]"

/-- Comma join of array elements, as Array.prototype.toString produces. -/
def jsListString : List Json → String
  | [] => ""
  | [x] => jsElemString x
  | x :: rest => jsElemString x ++ "," ++ jsListString rest
end

/-- The Number() coercion: none stands for NaN. -/
def jsToNumber : Json → Option Int
  | .null => some 0
  | .bool b => some (if b then 1 else 0)
  | .num n => some n
  | .str s => parseJsNumber s
  | .arr xs => parseJsNumber (jsListString xs)
  | .obj _ => none

/-! ## Envelope extraction (eyes.ts) -/

/-- The reserved wrapper keys of eyes.ts line 7; note that the set in the
source has five members, including the key named arguments. -/
def RESERVED_WRAPPER_KEYS : List String :=
  ["signal", "_meta", "requestId", "progressToken", "arguments"]

/-- Object.entries of an array value: index keys in order. -/
def arrayEntries (xs : List Json) : List (String × Json) :=
  xs.enum.map (fun p => (toString p.1, p.2))

/-- The unwrap step of extractEnvelope: when the arguments property holds a
non-null object-typed value, use its entries; otherwise keep the raw input. -/
def unwrapArguments (raw : List (String × Json)) : List (String × Json) :=
  match lookupA raw "arguments" with
  | some (.obj fs) => fs
  | some (.arr xs) => arrayEntries xs
  | _ => raw

/-- extractEnvelope: unwrap, then drop every reserved wrapper key. -/
def extractEnvelope (raw : List (String × Json)) : List (String × Json) :=
  (unwrapArguments raw).filter (fun kv => !(RESERVED_WRAPPER_KEYS.contains kv.1))

/-- The payload defaulting step of callEye: a missing, falsy or
non-object-typed payload is replaced with the empty object. -/
def defaultPayload : Option Json → Json
  | some p => if truthy p && typeofIsObject p then p else .obj []
  | none => .obj []

/-- The reasoning forwarding step of callEye: a falsy or missing
reasoning_md becomes JSON null. -/
def forwardedReasoning : Option Json → Json
  | some v => if truthy v then v else .null
  | none => .null

/-! ## Session manager (session-manager.ts) -/

/-- Preferred language values of the session context. -/
inductive Lang where
  | auto
  | en
  | ar
deriving DecidableEq, Repr

/-- A stored session row (SessionContext of session-manager.ts); null
fields are Option none and timestamps are integer milliseconds. -/
structure SessionRow where
  session_id : String
  user_id : Option String
  lang : Lang
  budget_tokens : Int
  tenant : Option String
  created_at : Int
  last_activity : Int
deriving DecidableEq, Repr

/-- The two Map fields of the SessionManager class. -/
structure ManagerState where
  sessions : List (String × SessionRow)
  connectionToSession : List (String × String)
deriving DecidableEq, Repr

/-- A freshly constructed manager holds no rows and no bindings. -/
def ManagerState.empty : ManagerState := ⟨[], []⟩

namespace SessionManager

/-- The session timeout constant of session-manager.ts line 21:
30 minutes, in milliseconds. -/
def sessionTimeout : Int := 30 * 60 * 1000

/-- The fresh row built by getOrCreate when no live session exists. -/
def mintSession (freshId : String) (now : Int) : SessionRow :=
  { session_id := freshId, user_id := none, lang := .auto, budget_tokens := 0,
    tenant := none, created_at := now, last_activity := now }

/-- getOrCreate. The randomly generated identifier is passed in as freshId;
the returned row is the value copy handed to the caller. -/
def getOrCreate (connectionId freshId : String) (now : Int) (st : ManagerState) :
    SessionRow × ManagerState :=
  match lookupA st.connectionToSession connectionId with
  | some sessionId =>
    match lookupA st.sessions sessionId with
    | some session =>
      let touched := { session with last_activity := now }
      (touched, { st with sessions := setA st.sessions sessionId touched })
    | none =>
      let session := mintSession freshId now
      (session, ⟨setA st.sessions freshId session,
                 setA st.connectionToSession connectionId freshId⟩)
  | none =>
    let session := mintSession freshId now
    (session, ⟨setA st.sessions freshId session,
               setA st.connectionToSession connectionId freshId⟩)

/-- The Partial update record passed to SessionManager.update by
coalesceContext; a some none in user_id or tenant writes null. -/
structure SessionUpdates where
  session_id : Option String := none
  user_id : Option (Option String) := none
  lang : Option Lang := none
  budget_tokens : Option Int := none
  tenant : Option (Option String) := none
deriving DecidableEq, Repr

/-- Object.assign of an update record onto a row, then the write of
last_activity performed by update. -/
def applyUpdates (session : SessionRow) (u : SessionUpdates) (now : Int) : SessionRow :=
  { session with
    session_id := u.session_id.getD session.session_id
    user_id := u.user_id.getD session.user_id
    lang := u.lang.getD session.lang
    budget_tokens := u.budget_tokens.getD session.budget_tokens
    tenant := u.tenant.getD session.tenant
    last_activity := now }

/-- update: throws (error) when the connection has no live session. -/
def update (connectionId : String) (updates : SessionUpdates) (now : Int)
    (st : ManagerState) : Except String (SessionRow × ManagerState) :=
  match lookupA st.connectionToSession connectionId with
  | none => .error ("No session found for connection " ++ connectionId)
  | some sessionId =>
    match lookupA st.sessions sessionId with
    | none => .error ("No session found for connection " ++ connectionId)
    | some session =>
      let session2 := applyUpdates session updates now
      .ok (session2, { st with sessions := setA st.sessions sessionId session2 })

/-- get: no creation; touches last_activity on a hit. -/
def get (connectionId : String) (now : Int) (st : ManagerState) :
    Option SessionRow × ManagerState :=
  match lookupA st.connectionToSession connectionId with
  | none => (none, st)
  | some sessionId =>
    match lookupA st.sessions sessionId with
    | none => (none, st)
    | some session =>
      let touched := { session with last_activity := now }
      (some touched, { st with sessions := setA st.sessions sessionId touched })

/-- cleanup: removes the session row named by the binding, then the binding. -/
def cleanup (connectionId : String) (st : ManagerState) : ManagerState :=
  match lookupA st.connectionToSession connectionId with
  | none => st
  | some sessionId =>
    ⟨delA st.sessions sessionId, delA st.connectionToSession connectionId⟩

/-- cleanupStale: collect the connections whose bound session is older than
the timeout, then clean each of them up. -/
def cleanupStale (now : Int) (st : ManagerState) : ManagerState :=
  let staleConnections := (st.connectionToSession.filter (fun cs =>
    match lookupA st.sessions cs.2 with
    | some session => decide (now - session.last_activity > sessionTimeout)
    | none => false)).map Prod.fst
  staleConnections.foldl (fun s c => cleanup c s) st

end SessionManager

/-! ## Context coalescing and the forwarded body (eyes.ts) -/

/-- The SessionContext type of eyes.ts (no timestamps). -/
structure SessionContext where
  session_id : String
  user_id : Option String
  lang : Lang
  budget_tokens : Int
  tenant : Option String
deriving DecidableEq, Repr

/-- ensureContext: a getOrCreate on the bound connection, projected to the
context fields. -/
def ensureContext (connectionId freshId : String) (now : Int) (st : ManagerState) :
    SessionContext × ManagerState :=
  let r := SessionManager.getOrCreate connectionId freshId now st
  (⟨r.1.session_id, r.1.user_id, r.1.lang, r.1.budget_tokens, r.1.tenant⟩, r.2)

/-- The session_id override check of coalesceContext: the value must be a
string with non-empty trim. -/
def sessionIdAct (raw : List (String × Json)) : Option String :=
  match lookupA raw "session_id" with
  | some (.str s) => if s.trim = "" then none else some s.trim
  | _ => none

/-- The user_id override check: a string with non-empty trim sets it; an
explicit null clears it. -/
def userIdAct (raw : List (String × Json)) : Option (Option String) :=
  match lookupA raw "user_id" with
  | some (.str s) => if s.trim = "" then none else some (some s.trim)
  | some .null => some none
  | _ => none

/-- The lang override check: the three strict equality comparisons of the
source, in order. -/
def langAct (raw : List (String × Json)) : Option Lang :=
  match lookupA raw "lang" with
  | some (.str s) =>
    if s = "en" then some .en
    else if s = "ar" then some .ar
    else if s = "auto" then some .auto
    else none
  | _ => none

/-- The budget_tokens override check: Number() coercion must yield a finite
non-negative value. -/
def budgetAct (raw : List (String × Json)) : Option Int :=
  match lookupA raw "budget_tokens" with
  | some v =>
    match jsToNumber v with
    | some n => if 0 ≤ n then some n else none
    | none => none
  | none => none

/-- The tenant override check: mirror of the user_id check. -/
def tenantAct (raw : List (String × Json)) : Option (Option String) :=
  match lookupA raw "tenant" with
  | some (.str s) => if s.trim = "" then none else some (some s.trim)
  | some .null => some none
  | _ => none

/-- coalesceContext: start from the bound session, override the fields that
pass the per-field checks, and push the accepted overrides through
SessionManager.update. An input that is not an object (or carries none of
the keys) leaves the base unchanged. -/
def coalesceContext (input : Option Json) (connectionId freshId : String) (now : Int)
    (st : ManagerState) : Except String (SessionContext × ManagerState) :=
  let base0 := (ensureContext connectionId freshId now st).1
  let st1 := (ensureContext connectionId freshId now st).2
  match input with
  | some (.obj raw) =>
    let base2 : SessionContext :=
      { session_id := (sessionIdAct raw).getD base0.session_id
        user_id := (userIdAct raw).getD base0.user_id
        lang := (langAct raw).getD base0.lang
        budget_tokens := (budgetAct raw).getD base0.budget_tokens
        tenant := (tenantAct raw).getD base0.tenant }
    let hasUpdates := (sessionIdAct raw).isSome || (userIdAct raw).isSome ||
      (langAct raw).isSome || (budgetAct raw).isSome || (tenantAct raw).isSome
    if hasUpdates then
      (SessionManager.update connectionId
        ⟨sessionIdAct raw, userIdAct raw, langAct raw, budgetAct raw, tenantAct raw⟩
        now st1).map (fun rs => (base2, rs.2))
    else
      .ok (base2, st1)
  | _ => .ok (base0, st1)

/-- Rendering of a language value back to its wire string. -/
def langToString : Lang → String
  | .auto => "auto"
  | .en => "en"
  | .ar => "ar"

/-- JSON rendering of a nullable string field. -/
def optStrToJson : Option String → Json
  | none => .null
  | some s => .str s

/-- JSON rendering of the merged session context. -/
def contextToJson (c : SessionContext) : Json :=
  .obj [("session_id", .str c.session_id),
        ("user_id", optStrToJson c.user_id),
        ("lang", .str (langToString c.lang)),
        ("budget_tokens", .num c.budget_tokens),
        ("tenant", optStrToJson c.tenant)]

/-- The finalPayload construction of callEye: extract the envelope, merge
the context, default the payload, and forward reasoning_md or null. The
forwarded body has exactly the keys context, payload and reasoning_md. -/
def callEyeBody (raw : List (String × Json)) (connectionId freshId : String) (now : Int)
    (st : ManagerState) : Except String ((List (String × Json)) × ManagerState) :=
  let envelope := extractEnvelope raw
  (coalesceContext (lookupA envelope "context") connectionId freshId now st).map
    (fun rs =>
      ([("context", contextToJson rs.1),
        ("payload", defaultPayload (lookupA envelope "payload")),
        ("reasoning_md", forwardedReasoning (lookupA envelope "reasoning_md"))], rs.2))

/-! ## Association list lemmas -/

theorem lookupA_filter {α : Type} (m : List (String × α)) (p : String → Bool) (k : String) :
    lookupA (m.filter (fun kv => p kv.1)) k = if p k then lookupA m k else none := by
  induction m with
  | nil => by_cases hp : p k <;> simp [lookupA, hp]
  | cons kv rest ih =>
    obtain ⟨k2, v⟩ := kv
    rw [List.filter_cons]
    by_cases hk : k2 = k
    · subst hk
      by_cases hp : p k2 <;> simp [lookupA, hp, ih]
    · by_cases hp : p k2 <;> simp [lookupA, hk, hp, ih]

theorem keysOf_filter {α : Type} (m : List (String × α)) (p : String → Bool) :
    keysOf (m.filter (fun kv => p kv.1)) = (keysOf m).filter p := by
  induction m with
  | nil => simp [keysOf]
  | cons kv rest ih =>
    obtain ⟨k2, v⟩ := kv
    rw [List.filter_cons]
    by_cases hp : p k2 <;> simp [keysOf, List.filter_cons, hp] <;>
      simpa [keysOf] using ih

theorem lookupA_setA_self {α : Type} (m : List (String × α)) (k : String) (v : α) :
    lookupA (setA m k v) k = some v := by
  induction m with
  | nil => simp [setA, lookupA]
  | cons kv rest ih =>
    obtain ⟨k2, v2⟩ := kv
    by_cases hk : k2 = k
    · subst hk; simp [setA, lookupA]
    · simp [setA, lookupA, hk, ih]

theorem lookupA_setA_ne {α : Type} (m : List (String × α)) (k k' : String) (v : α)
    (h : k' ≠ k) : lookupA (setA m k v) k' = lookupA m k' := by
  induction m with
  | nil =>
    have h2 : ¬ k = k' := fun hh => h hh.symm
    simp [setA, lookupA, h2]
  | cons kv rest ih =>
    obtain ⟨k2, v2⟩ := kv
    by_cases hk : k2 = k
    · subst hk
      have h2 : ¬ k2 = k' := fun hh => h hh.symm
      simp [setA, lookupA, h2]
    · simp only [setA, if_neg hk]
      by_cases hk2 : k2 = k' <;> simp [lookupA, hk2, ih]

theorem setA_setA_self {α : Type} (m : List (String × α)) (k : String) (v v' : α) :
    setA (setA m k v) k v' = setA m k v' := by
  induction m with
  | nil => simp [setA]
  | cons kv rest ih =>
    obtain ⟨k2, v2⟩ := kv
    by_cases hk : k2 = k <;> simp [setA, hk, ih]

theorem setA_of_lookup_none {α : Type} (m : List (String × α)) (k : String) (v : α)
    (h : lookupA m k = none) : setA m k v = m ++ [(k, v)] := by
  induction m with
  | nil => simp [setA]
  | cons kv rest ih =>
    obtain ⟨k2, v2⟩ := kv
    by_cases hk : k2 = k
    · subst hk; simp [lookupA] at h
    · simp only [lookupA, if_pos, if_neg hk] at h
      simp [setA, hk, ih h]

theorem keysOf_setA_of_mem {α : Type} (m : List (String × α)) (k : String) (v : α)
    (h : lookupA m k ≠ none) : keysOf (setA m k v) = keysOf m := by
  induction m with
  | nil => simp [lookupA] at h
  | cons kv rest ih =>
    obtain ⟨k2, v2⟩ := kv
    by_cases hk : k2 = k
    · subst hk; simp [setA, keysOf]
    · simp only [lookupA, if_neg hk] at h
      simp only [setA, if_neg hk, keysOf, List.map_cons]
      have := ih h
      simp only [keysOf] at this
      rw [this]

theorem lookupA_eq_none_iff {α : Type} (m : List (String × α)) (k : String) :
    lookupA m k = none ↔ k ∉ keysOf m := by
  induction m with
  | nil => simp [lookupA, keysOf]
  | cons kv rest ih =>
    obtain ⟨k2, v2⟩ := kv
    by_cases hk : k2 = k
    · subst hk; simp [lookupA, keysOf]
    · have h2 : ¬ k = k2 := fun hh => hk hh.symm
      simp [lookupA, keysOf, hk, h2, ih]

theorem mem_of_lookupA_eq_some {α : Type} (m : List (String × α)) (k : String) (v : α)
    (h : lookupA m k = some v) : (k, v) ∈ m := by
  induction m with
  | nil => simp [lookupA] at h
  | cons kv rest ih =>
    obtain ⟨k2, v2⟩ := kv
    by_cases hk : k2 = k
    · subst hk
      have h2 : v2 = v := by simpa [lookupA] using h
      subst h2; exact List.mem_cons_self _ _
    · simp only [lookupA, if_neg hk] at h
      exact List.mem_cons_of_mem _ (ih h)

theorem lookupA_eq_some_of_mem {α : Type} (m : List (String × α)) (k : String) (v : α)
    (hnd : (keysOf m).Nodup) (h : (k, v) ∈ m) : lookupA m k = some v := by
  induction m with
  | nil => simp at h
  | cons kv rest ih =>
    obtain ⟨k2, v2⟩ := kv
    simp only [keysOf, List.map_cons, List.nodup_cons] at hnd
    rcases List.mem_cons.mp h with h1 | h2
    · cases h1
      simp [lookupA]
    · have hk2ne : ¬ k2 = k := by
        intro he; subst he
        exact hnd.1 (List.mem_map_of_mem Prod.fst h2)
      simp only [lookupA, if_neg hk2ne]
      have hnd2 : (keysOf rest).Nodup := hnd.2
      exact ih hnd2 h2

theorem delA_sublist {α : Type} (m : List (String × α)) (k : String) :
    List.Sublist (delA m k) m := by
  induction m with
  | nil => simp [delA]
  | cons kv rest ih =>
    obtain ⟨k2, v2⟩ := kv
    by_cases hk : k2 = k
    · simp only [delA, if_pos hk]
      exact List.sublist_cons_self _ _
    · simp only [delA, if_neg hk]
      exact ih.cons₂ _

theorem keysOf_delA {α : Type} (m : List (String × α)) (k : String) :
    keysOf (delA m k) = (keysOf m).erase k := by
  induction m with
  | nil => simp [delA, keysOf]
  | cons kv rest ih =>
    obtain ⟨k2, v2⟩ := kv
    by_cases hk : k2 = k
    · subst hk; simp [delA, keysOf, List.erase_cons_head]
    · simp only [delA, if_neg hk, keysOf, List.map_cons, List.erase_cons]
      have hbeq : (k2 == k) = false := by
        simpa using hk
      simp only [hbeq, if_false]
      have := ih
      simp only [keysOf] at this
      rw [this]
      simp

theorem lookupA_delA_self {α : Type} (m : List (String × α)) (k : String)
    (hnd : (keysOf m).Nodup) : lookupA (delA m k) k = none := by
  rw [lookupA_eq_none_iff, keysOf_delA]
  exact (hnd.mem_erase_iff).not.mpr (by simp)

theorem lookupA_delA_ne {α : Type} (m : List (String × α)) (k k' : String)
    (h : k' ≠ k) : lookupA (delA m k) k' = lookupA m k' := by
  induction m with
  | nil => simp [delA]
  | cons kv rest ih =>
    obtain ⟨k2, v2⟩ := kv
    by_cases hk : k2 = k
    · subst hk
      have h2 : ¬ k2 = k' := fun hh => h hh.symm
      simp [delA, lookupA, h2]
    · by_cases hk2 : k2 = k'
      · subst hk2
        simp [delA, lookupA, hk]
      · simp [delA, lookupA, hk, hk2, ih]

/-! ## Claim C3: envelope extraction and routing -/

/-- Claim C3 counterexample: the reserved key set in the code has a fifth
member, arguments. On an input whose arguments property is a string (so no
wrapper is unwrapped), the claim as stated predicts the key survives, but
extractEnvelope removes it. -/
theorem extractEnvelope_arguments_counterexample :
    lookupA [("arguments", Json.str "x"), ("payload", Json.obj [])] "arguments"
        = some (Json.str "x") ∧
    ¬ ("arguments" ∈ ["signal", "_meta", "requestId", "progressToken"]) ∧
    unwrapArguments [("arguments", Json.str "x"), ("payload", Json.obj [])]
        = [("arguments", Json.str "x"), ("payload", Json.obj [])] ∧
    lookupA (extractEnvelope [("arguments", Json.str "x"), ("payload", Json.obj [])])
        "arguments" = none :=
  ⟨rfl, by decide, rfl, rfl⟩

/-- Claim C3 (amended): the front end unwraps the arguments wrapper when it
holds an object-typed value, removes exactly the five reserved wrapper keys
signal, _meta, requestId, progressToken and arguments, passes every other
key of the unwrapped mapping through unchanged (same values, same order),
and replaces a payload that is missing, null or not of JavaScript object
type with the empty object; object and array payloads pass through. -/
theorem extractEnvelope_spec (raw : List (String × Json)) :
    (∀ k : String, lookupA (extractEnvelope raw) k =
        if RESERVED_WRAPPER_KEYS.contains k then none
        else lookupA (unwrapArguments raw) k) ∧
    keysOf (extractEnvelope raw) =
        (keysOf (unwrapArguments raw)).filter
          (fun k => !(RESERVED_WRAPPER_KEYS.contains k)) ∧
    (∀ fs : List (String × Json), defaultPayload (some (.obj fs)) = .obj fs) ∧
    (∀ xs : List Json, defaultPayload (some (.arr xs)) = .arr xs) ∧
    defaultPayload (some .null) = .obj [] ∧
    defaultPayload none = .obj [] ∧
    (∀ b, defaultPayload (some (.bool b)) = .obj []) ∧
    (∀ n, defaultPayload (some (.num n)) = .obj []) ∧
    (∀ s, defaultPayload (some (.str s)) = .obj []) := by
  refine ⟨?_, ?_, ?_, ?_, rfl, rfl, ?_, ?_, ?_⟩
  · intro k
    have hf := lookupA_filter (unwrapArguments raw)
      (fun k2 => !(RESERVED_WRAPPER_KEYS.contains k2)) k
    simp only [extractEnvelope]
    rw [hf]
    by_cases hc : k ∈ RESERVED_WRAPPER_KEYS <;> simp [hc]
  · exact keysOf_filter (unwrapArguments raw)
      (fun k2 => !(RESERVED_WRAPPER_KEYS.contains k2))
  · intro fs; rfl
  · intro xs; rfl
  · intro b; cases b <;> rfl
  · intro n; simp [defaultPayload, truthy, typeofIsObject]
  · intro s; simp [defaultPayload, truthy, typeofIsObject]

/-! ## Claim C10: reasoning_md forwarding -/

/-- Claim C10: in the body forwarded to the server, reasoning_md equals the
submitted value exactly when that value is truthy and is JSON null
otherwise; in particular an empty-string reasoning_md becomes null. -/
theorem reasoning_md_forwarding (raw : List (String × Json))
    (connectionId freshId : String) (now : Int) (st : ManagerState)
    (body : List (String × Json)) (st2 : ManagerState)
    (h : callEyeBody raw connectionId freshId now st = .ok (body, st2)) :
    (∀ v : Json, lookupA (extractEnvelope raw) "reasoning_md" = some v →
        ((truthy v = true ∧ lookupA body "reasoning_md" = some v) ∨
         (truthy v = false ∧ lookupA body "reasoning_md" = some .null))) ∧
    (lookupA (extractEnvelope raw) "reasoning_md" = some (.str "") →
        lookupA body "reasoning_md" = some .null) ∧
    (lookupA (extractEnvelope raw) "reasoning_md" = none →
        lookupA body "reasoning_md" = some .null) := by
  have hb : lookupA body "reasoning_md" =
      some (forwardedReasoning (lookupA (extractEnvelope raw) "reasoning_md")) := by
    cases hco : coalesceContext (lookupA (extractEnvelope raw) "context")
        connectionId freshId now st with
    | error e =>
      simp only [callEyeBody, hco, Except.map] at h
      exact Except.noConfusion h
    | ok rs =>
      simp only [callEyeBody, hco, Except.map] at h
      injection h with h3
      have hbody : body =
          [("context", contextToJson rs.1),
           ("payload", defaultPayload (lookupA (extractEnvelope raw) "payload")),
           ("reasoning_md", forwardedReasoning (lookupA (extractEnvelope raw) "reasoning_md"))] :=
        (congrArg Prod.fst h3).symm
      rw [hbody, lookupA, if_neg (by decide), lookupA, if_neg (by decide),
        lookupA, if_pos rfl]
  refine ⟨?_, ?_, ?_⟩
  · intro v hv
    rw [hv] at hb
    by_cases ht : truthy v = true
    · exact Or.inl ⟨ht, by simpa [forwardedReasoning, ht] using hb⟩
    · have ht2 : truthy v = false := by
        cases hvt : truthy v
        · rfl
        · exact absurd hvt ht
      exact Or.inr ⟨ht2, by simpa [forwardedReasoning, ht2] using hb⟩
  · intro hv
    rw [hv] at hb
    simpa [forwardedReasoning, truthy] using hb
  · intro hv
    rw [hv] at hb
    simpa [forwardedReasoning] using hb

/-- Claim C10 witness: a concrete envelope with empty reasoning_md is
forwarded with reasoning_md null. -/
theorem reasoning_md_forwarding_witness :
    lookupA [("context", contextToJson ⟨"sess-1", none, Lang.auto, 0, none⟩),
             ("payload", Json.obj []),
             ("reasoning_md", Json.null)] "reasoning_md" = some Json.null :=
  (reasoning_md_forwarding [("reasoning_md", Json.str "")] "conn-1" "sess-1" 0
    ManagerState.empty
    [("context", contextToJson ⟨"sess-1", none, Lang.auto, 0, none⟩),
     ("payload", Json.obj []), ("reasoning_md", Json.null)]
    ⟨[("sess-1", SessionManager.mintSession "sess-1" 0)], [("conn-1", "sess-1")]⟩
    rfl).2.1 rfl

/-! ## Claim C2: relaxed mode and the forwarded body -/

/-- The orchestrator payload as received server side; absent fields are none. -/
structure OrchPayload where
  intent : Option String
  work : Option (List (String × Json))
  context_info : Option (List (String × Json))
  reasoning_md : Option String

/-- Modelled from the spec: the strict and relaxed validation performed by
orchestrate in src/third_eye/eyes/overseer.py, which is not part of the
source tree. Per the implementation report, strict mode requires all of
intent, work, context_info and reasoning_md with minimum lengths intent 5
and reasoning 10, while relaxed mode requires only intent of minimum
length 1. -/
def orchestrateAccepts (strict_mode : Bool) (p : OrchPayload) : Bool :=
  if strict_mode then
    match p.intent, p.work, p.context_info, p.reasoning_md with
    | some i, some w, some c, some r =>
        decide (5 ≤ i.length) && !w.isEmpty && !c.isEmpty && decide (10 ≤ r.length)
    | _, _, _, _ => false
  else
    match p.intent with
    | some i => decide (1 ≤ i.length)
    | none => false

/-- Claim C2 counterexample: an envelope submitted with a strict_mode field
is forwarded without it; the orchestrate request body built by the bridge
never carries strict_mode. -/
theorem strict_mode_not_forwarded_counterexample :
    lookupA [("payload", Json.obj [("intent", Json.str "test")]),
             ("reasoning_md", Json.str "because reasons"),
             ("strict_mode", Json.bool false)] "strict_mode" = some (Json.bool false) ∧
    (callEyeBody [("payload", Json.obj [("intent", Json.str "test")]),
                  ("reasoning_md", Json.str "because reasons"),
                  ("strict_mode", Json.bool false)]
        "conn-1" "sess-1" 0 ManagerState.empty).map
      (fun rs => lookupA rs.1 "strict_mode") = .ok none :=
  ⟨rfl, rfl⟩

/-- Claim C2 (amended): with strict_mode false the (spec-modelled) server
accepts every envelope whose intent has at least one character; the body
the bridge forwards carries exactly context, payload and reasoning_md, so
strict_mode is never among its fields. -/
theorem strict_mode_bridge_spec :
    (∀ (raw : List (String × Json)) (connectionId freshId : String) (now : Int)
        (st : ManagerState) (body : List (String × Json)) (st2 : ManagerState),
      callEyeBody raw connectionId freshId now st = .ok (body, st2) →
      keysOf body = ["context", "payload", "reasoning_md"] ∧
      lookupA body "strict_mode" = none) ∧
    (∀ (p : OrchPayload) (i : String), p.intent = some i → 1 ≤ i.length →
      orchestrateAccepts false p = true) := by
  constructor
  · intro raw connectionId freshId now st body st2 h
    cases hco : coalesceContext (lookupA (extractEnvelope raw) "context")
        connectionId freshId now st with
    | error e =>
      simp only [callEyeBody, hco, Except.map] at h
      exact Except.noConfusion h
    | ok rs =>
      simp only [callEyeBody, hco, Except.map] at h
      injection h with h3
      have hbody : body =
          [("context", contextToJson rs.1),
           ("payload", defaultPayload (lookupA (extractEnvelope raw) "payload")),
           ("reasoning_md",
             forwardedReasoning (lookupA (extractEnvelope raw) "reasoning_md"))] :=
        (congrArg Prod.fst h3).symm
      subst hbody
      refine ⟨rfl, ?_⟩
      rw [lookupA, if_neg (by decide), lookupA, if_neg (by decide),
        lookupA, if_neg (by decide)]
      rfl
  · intro p i hi hlen
    simp [orchestrateAccepts, hi, hlen]

/-- Claim C2 witness: concrete instances of both conjuncts of the amended
claim. -/
theorem strict_mode_bridge_spec_witness :
    (keysOf [("context", contextToJson ⟨"sess-1", none, Lang.auto, 0, none⟩),
             ("payload", Json.obj [("intent", Json.str "test")]),
             ("reasoning_md", Json.str "because reasons")] =
      ["context", "payload", "reasoning_md"]) ∧
    orchestrateAccepts false ⟨some "t", none, none, none⟩ = true :=
  ⟨(strict_mode_bridge_spec.1
      [("payload", Json.obj [("intent", Json.str "test")]),
       ("reasoning_md", Json.str "because reasons"),
       ("strict_mode", Json.bool false)]
      "conn-1" "sess-1" 0 ManagerState.empty
      [("context", contextToJson ⟨"sess-1", none, Lang.auto, 0, none⟩),
       ("payload", Json.obj [("intent", Json.str "test")]),
       ("reasoning_md", Json.str "because reasons")]
      ⟨[("sess-1", SessionManager.mintSession "sess-1" 0)], [("conn-1", "sess-1")]⟩
      rfl).1,
   strict_mode_bridge_spec.2 ⟨some "t", none, none, none⟩ "t" rfl (by decide)⟩

/-! ## Claim C5: getOrCreate idempotence -/

theorem setA_self_of_lookup {α : Type} (m : List (String × α)) (k : String) (v : α)
    (h : lookupA m k = some v) : setA m k v = m := by
  induction m with
  | nil => simp [lookupA] at h
  | cons kv rest ih =>
    obtain ⟨k2, v2⟩ := kv
    by_cases hk : k2 = k
    · subst hk
      have h2 : v2 = v := by simpa [lookupA] using h
      subst h2; simp [setA]
    · simp only [lookupA, if_neg hk] at h
      simp [setA, hk, ih h]

/-- After any getOrCreate call the connection is bound to a live row equal
to the returned value copy, whose last_activity is the call time. -/
theorem getOrCreate_post (st : ManagerState) (c fresh : String) (now : Int) :
    ∃ sid : String,
      lookupA (SessionManager.getOrCreate c fresh now st).2.connectionToSession c = some sid ∧
      lookupA (SessionManager.getOrCreate c fresh now st).2.sessions sid =
        some (SessionManager.getOrCreate c fresh now st).1 ∧
      (SessionManager.getOrCreate c fresh now st).1.last_activity = now := by
  cases hc : lookupA st.connectionToSession c with
  | some sid =>
    cases hs : lookupA st.sessions sid with
    | some session =>
      refine ⟨sid, ?_, ?_, ?_⟩
      · simp [SessionManager.getOrCreate, hc, hs]
      · simp [SessionManager.getOrCreate, hc, hs, lookupA_setA_self]
      · simp [SessionManager.getOrCreate, hc, hs]
    | none =>
      refine ⟨fresh, ?_, ?_, ?_⟩
      · simp [SessionManager.getOrCreate, hc, hs, lookupA_setA_self]
      · simp [SessionManager.getOrCreate, hc, hs, lookupA_setA_self]
      · simp [SessionManager.getOrCreate, hc, hs, SessionManager.mintSession]
  | none =>
    refine ⟨fresh, ?_, ?_, ?_⟩
    · simp [SessionManager.getOrCreate, hc, lookupA_setA_self]
    · simp [SessionManager.getOrCreate, hc, lookupA_setA_self]
    · simp [SessionManager.getOrCreate, hc, SessionManager.mintSession]

/-- A getOrCreate against a state that already binds the connection to a
live row touched at the same instant is the identity. -/
theorem getOrCreate_stable (c fresh2 : String) (now : Int) (s1 : ManagerState)
    (r1 : SessionRow) (sid : String)
    (hc : lookupA s1.connectionToSession c = some sid)
    (hs : lookupA s1.sessions sid = some r1)
    (hl : r1.last_activity = now) :
    SessionManager.getOrCreate c fresh2 now s1 = (r1, s1) := by
  have htouch : { r1 with last_activity := now } = r1 := by
    cases r1
    simp only at hl
    simp [hl]
  simp only [SessionManager.getOrCreate, hc, hs, htouch,
    setA_self_of_lookup s1.sessions sid r1 hs]

/-- N successive getOrCreate calls, collecting the returned value copies. -/
def callGetOrCreateN (c fresh : String) (now : Int) :
    Nat → ManagerState → List SessionRow × ManagerState
  | 0, st => ([], st)
  | n + 1, st =>
    let r := SessionManager.getOrCreate c fresh now st
    let rest := callGetOrCreateN c fresh now n r.2
    (r.1 :: rest.1, rest.2)

theorem callGetOrCreateN_stable (c fresh : String) (now : Int) (s1 : ManagerState)
    (r1 : SessionRow) (sid : String) (m : Nat)
    (hc : lookupA s1.connectionToSession c = some sid)
    (hs : lookupA s1.sessions sid = some r1)
    (hl : r1.last_activity = now) :
    callGetOrCreateN c fresh now m s1 = (List.replicate m r1, s1) := by
  induction m with
  | zero => rfl
  | succ k ih =>
    simp only [callGetOrCreateN, getOrCreate_stable c fresh now s1 r1 sid hc hs hl, ih,
      List.replicate_succ]

/-- Claim C5: starting from a state where the connection is unbound and the
minted id is fresh, N+1 getOrCreate calls with no intervening writes return
N+1 equal value copies, and exactly one session row and one connection
binding are created (all by the first call). -/
theorem getOrCreate_idempotent (st : ManagerState) (c fresh : String) (now : Int) (n : Nat)
    (hc : lookupA st.connectionToSession c = none)
    (hf : lookupA st.sessions fresh = none) :
    (callGetOrCreateN c fresh now (n + 1) st).1 =
      List.replicate (n + 1) (SessionManager.getOrCreate c fresh now st).1 ∧
    (callGetOrCreateN c fresh now (n + 1) st).2 =
      (SessionManager.getOrCreate c fresh now st).2 ∧
    (SessionManager.getOrCreate c fresh now st).2.sessions.length =
      st.sessions.length + 1 ∧
    (SessionManager.getOrCreate c fresh now st).2.connectionToSession.length =
      st.connectionToSession.length + 1 := by
  obtain ⟨sid, h1, h2, h3⟩ := getOrCreate_post st c fresh now
  have hstable := callGetOrCreateN_stable c fresh now
    (SessionManager.getOrCreate c fresh now st).2
    (SessionManager.getOrCreate c fresh now st).1 sid n h1 h2 h3
  refine ⟨?_, ?_, ?_, ?_⟩
  · simp only [callGetOrCreateN, hstable, List.replicate_succ]
  · simp only [callGetOrCreateN, hstable]
  · simp only [SessionManager.getOrCreate, hc, setA_of_lookup_none st.sessions fresh _ hf,
      List.length_append, List.length_cons, List.length_nil]
  · simp only [SessionManager.getOrCreate, hc,
      setA_of_lookup_none st.connectionToSession c _ hc,
      List.length_append, List.length_cons, List.length_nil]

/-- Claim C5 witness: three calls on an empty store yield three equal
copies and a single row and binding. -/
theorem getOrCreate_idempotent_witness :
    (callGetOrCreateN "conn-1" "sess-1" 5 (2 + 1) ManagerState.empty).1 =
      List.replicate (2 + 1)
        (SessionManager.getOrCreate "conn-1" "sess-1" 5 ManagerState.empty).1 ∧
    (callGetOrCreateN "conn-1" "sess-1" 5 (2 + 1) ManagerState.empty).2 =
      (SessionManager.getOrCreate "conn-1" "sess-1" 5 ManagerState.empty).2 ∧
    (SessionManager.getOrCreate "conn-1" "sess-1" 5 ManagerState.empty).2.sessions.length =
      (ManagerState.empty).sessions.length + 1 ∧
    (SessionManager.getOrCreate "conn-1" "sess-1" 5
        ManagerState.empty).2.connectionToSession.length =
      (ManagerState.empty).connectionToSession.length + 1 :=
  getOrCreate_idempotent ManagerState.empty "conn-1" "sess-1" 5 2 rfl rfl

/-! ## Claim C7: session store invariant -/

/-- The store invariant: no duplicate connection keys, no duplicate row
keys, no two bindings sharing a session id, and the bound session ids are
exactly the stored row keys (no orphan rows, no dangling bindings). -/
def StoreInv (st : ManagerState) : Prop :=
  (keysOf st.connectionToSession).Nodup ∧
  (keysOf st.sessions).Nodup ∧
  (st.connectionToSession.map Prod.snd).Nodup ∧
  (∀ sid ∈ st.connectionToSession.map Prod.snd, sid ∈ keysOf st.sessions) ∧
  (∀ sid ∈ keysOf st.sessions, sid ∈ st.connectionToSession.map Prod.snd)

theorem mem_delA {α : Type} (m : List (String × α)) (k : String)
    (hnd : (keysOf m).Nodup) (k' : String) (v' : α) :
    (k', v') ∈ delA m k ↔ ((k', v') ∈ m ∧ k' ≠ k) := by
  induction m with
  | nil => simp [delA]
  | cons kv rest ih =>
    obtain ⟨k2, v2⟩ := kv
    simp only [keysOf, List.map_cons, List.nodup_cons] at hnd
    by_cases hk : k2 = k
    · subst hk
      simp only [delA, if_pos rfl]
      constructor
      · intro hmem
        refine ⟨List.mem_cons_of_mem _ hmem, ?_⟩
        intro he; subst he
        exact hnd.1 (List.mem_map_of_mem Prod.fst hmem)
      · rintro ⟨hmem, hne⟩
        rcases List.mem_cons.mp hmem with h1 | h2
        · cases h1; exact absurd rfl hne
        · exact h2
    · simp only [delA, if_neg hk]
      constructor
      · intro hmem
        rcases List.mem_cons.mp hmem with h1 | h2
        · cases h1
          exact ⟨List.mem_cons_self _ _, fun he => hk he⟩
        · have := (ih hnd.2 |>.mp h2)
          exact ⟨List.mem_cons_of_mem _ this.1, this.2⟩
      · rintro ⟨hmem, hne⟩
        rcases List.mem_cons.mp hmem with h1 | h2
        · cases h1; exact List.mem_cons_self _ _
        · exact List.mem_cons_of_mem _ ((ih hnd.2).mpr ⟨h2, hne⟩)

theorem getOrCreate_inv (st : ManagerState) (c fresh : String) (now : Int)
    (hinv : StoreInv st) (hf : lookupA st.sessions fresh = none) :
    StoreInv (SessionManager.getOrCreate c fresh now st).2 := by
  obtain ⟨hc1, hc2, hc3, hc4, hc5⟩ := hinv
  have hfresh_keys : fresh ∉ keysOf st.sessions := (lookupA_eq_none_iff _ _).mp hf
  have hfresh_vals : fresh ∉ st.connectionToSession.map Prod.snd :=
    fun hmem => hfresh_keys (hc4 fresh hmem)
  cases hc : lookupA st.connectionToSession c with
  | some sid =>
    cases hs : lookupA st.sessions sid with
    | some session =>
      have hkeys : keysOf (setA st.sessions sid { session with last_activity := now }) =
          keysOf st.sessions :=
        keysOf_setA_of_mem _ _ _ (by simp [hs])
      simp only [SessionManager.getOrCreate, hc, hs, StoreInv]
      exact ⟨hc1, hkeys ▸ hc2, hc3, fun s hm => hkeys ▸ hc4 s hm,
        fun s hm => hc5 s (hkeys ▸ hm)⟩
    | none =>
      exfalso
      have hmem : (c, sid) ∈ st.connectionToSession := mem_of_lookupA_eq_some _ _ _ hc
      have : sid ∈ keysOf st.sessions :=
        hc4 sid (List.mem_map_of_mem Prod.snd hmem)
      exact ((lookupA_eq_none_iff _ _).mp hs) this
  | none =>
    have hcmem : c ∉ keysOf st.connectionToSession := (lookupA_eq_none_iff _ _).mp hc
    have hConn : setA st.connectionToSession c fresh =
        st.connectionToSession ++ [(c, fresh)] :=
      setA_of_lookup_none _ _ _ hc
    have hSess : setA st.sessions fresh (SessionManager.mintSession fresh now) =
        st.sessions ++ [(fresh, SessionManager.mintSession fresh now)] :=
      setA_of_lookup_none _ _ _ hf
    simp only [SessionManager.getOrCreate, hc, StoreInv, hConn, hSess, keysOf, List.map_append,
      List.map_cons, List.map_nil]
    refine ⟨?_, ?_, ?_, ?_, ?_⟩
    · simp only [List.nodup_append]
      exact ⟨hc1, List.nodup_singleton c,
        by simpa [List.disjoint_singleton, keysOf] using hcmem⟩
    · simp only [List.nodup_append]
      exact ⟨hc2, List.nodup_singleton fresh,
        by simpa [List.disjoint_singleton, keysOf] using hfresh_keys⟩
    · simp only [List.nodup_append]
      exact ⟨hc3, List.nodup_singleton fresh,
        by simpa [List.disjoint_singleton] using hfresh_vals⟩
    · intro s hm
      simp only [List.mem_append, List.mem_singleton] at hm ⊢
      rcases hm with hm | hm
      · exact Or.inl (by simpa [keysOf] using hc4 s hm)
      · exact Or.inr hm
    · intro s hm
      simp only [List.mem_append, List.mem_singleton] at hm ⊢
      rcases hm with hm | hm
      · exact Or.inl (hc5 s (by simpa [keysOf] using hm))
      · exact Or.inr hm

theorem get_inv (st : ManagerState) (c : String) (now : Int) (hinv : StoreInv st) :
    StoreInv (SessionManager.get c now st).2 := by
  obtain ⟨hc1, hc2, hc3, hc4, hc5⟩ := hinv
  cases hc : lookupA st.connectionToSession c with
  | some sid =>
    cases hs : lookupA st.sessions sid with
    | some session =>
      have hkeys : keysOf (setA st.sessions sid { session with last_activity := now }) =
          keysOf st.sessions :=
        keysOf_setA_of_mem _ _ _ (by simp [hs])
      simp only [SessionManager.get, hc, hs, StoreInv]
      exact ⟨hc1, hkeys ▸ hc2, hc3, fun s hm => hkeys ▸ hc4 s hm,
        fun s hm => hc5 s (hkeys ▸ hm)⟩
    | none =>
      simp only [SessionManager.get, hc, hs]
      exact ⟨hc1, hc2, hc3, hc4, hc5⟩
  | none =>
    simp only [SessionManager.get, hc]
    exact ⟨hc1, hc2, hc3, hc4, hc5⟩

theorem update_inv (st : ManagerState) (c : String)
    (u : SessionManager.SessionUpdates) (now : Int) (hinv : StoreInv st) (st2 : ManagerState)
    (r : SessionRow) (h : SessionManager.update c u now st = .ok (r, st2)) :
    StoreInv st2 := by
  obtain ⟨hc1, hc2, hc3, hc4, hc5⟩ := hinv
  cases hc : lookupA st.connectionToSession c with
  | some sid =>
    cases hs : lookupA st.sessions sid with
    | some session =>
      simp only [SessionManager.update, hc, hs] at h
      injection h with h3
      have hst2 : st2 = { st with
          sessions := setA st.sessions sid (SessionManager.applyUpdates session u now) } :=
        (congrArg Prod.snd h3).symm
      subst hst2
      have hkeys : keysOf (setA st.sessions sid (SessionManager.applyUpdates session u now)) =
          keysOf st.sessions :=
        keysOf_setA_of_mem _ _ _ (by simp [hs])
      exact ⟨hc1, hkeys ▸ hc2, hc3, fun s hm => hkeys ▸ hc4 s hm,
        fun s hm => hc5 s (hkeys ▸ hm)⟩
    | none =>
      simp only [SessionManager.update, hc, hs] at h
      exact Except.noConfusion h
  | none =>
    simp only [SessionManager.update, hc] at h
    exact Except.noConfusion h

theorem cleanup_inv (st : ManagerState) (c : String) (hinv : StoreInv st) :
    StoreInv (SessionManager.cleanup c st) := by
  obtain ⟨hc1, hc2, hc3, hc4, hc5⟩ := hinv
  cases hc : lookupA st.connectionToSession c with
  | none => simpa [SessionManager.cleanup, hc] using ⟨hc1, hc2, hc3, hc4, hc5⟩
  | some sid =>
    have hpair : (c, sid) ∈ st.connectionToSession := mem_of_lookupA_eq_some _ _ _ hc
    simp only [SessionManager.cleanup, hc, StoreInv]
    refine ⟨?_, ?_, ?_, ?_, ?_⟩
    · exact hc1.sublist ((delA_sublist _ _).map Prod.fst)
    · exact hc2.sublist ((delA_sublist _ _).map Prod.fst)
    · exact hc3.sublist ((delA_sublist _ _).map Prod.snd)
    · intro s hm
      obtain ⟨⟨k', v'⟩, hkm, hvs⟩ := List.mem_map.mp hm
      simp only at hvs
      subst hvs
      have hin := (mem_delA _ _ hc1 _ _).mp hkm
      have hs_keys : v' ∈ keysOf st.sessions :=
        hc4 v' (List.mem_map_of_mem Prod.snd hin.1)
      have hs_ne : v' ≠ sid := by
        intro he; subst he
        have heq := List.inj_on_of_nodup_map hc3 hin.1 hpair rfl
        exact hin.2 (congrArg Prod.fst heq)
      rw [keysOf_delA]
      exact (hc2.mem_erase_iff).mpr ⟨hs_ne, hs_keys⟩
    · intro s hm
      rw [keysOf_delA] at hm
      obtain ⟨hs_ne, hs_keys⟩ := (hc2.mem_erase_iff).mp hm
      obtain ⟨⟨k', v'⟩, hkm, hvs⟩ := List.mem_map.mp (hc5 s hs_keys)
      cases hvs
      have hk_ne : k' ≠ c := by
        intro he; subst he
        have heq := List.inj_on_of_nodup_map hc1 hkm hpair rfl
        exact hs_ne (congrArg Prod.snd heq)
      exact List.mem_map_of_mem Prod.snd ((mem_delA _ _ hc1 _ _).mpr ⟨hkm, hk_ne⟩)

theorem foldl_cleanup_inv (L : List String) (st : ManagerState) (hinv : StoreInv st) :
    StoreInv (L.foldl (fun s c => SessionManager.cleanup c s) st) := by
  induction L generalizing st with
  | nil => exact hinv
  | cons x rest ih =>
    exact ih (SessionManager.cleanup x st) (cleanup_inv st x hinv)

theorem cleanupStale_inv (st : ManagerState) (now : Int) (hinv : StoreInv st) :
    StoreInv (SessionManager.cleanupStale now st) :=
  foldl_cleanup_inv _ st hinv

/-- One session store operation; the freshly minted id of getOrCreate is a
parameter so that non-collision can be stated. -/
inductive StoreOp where
  | getOrCreate (connectionId freshId : String) (now : Int)
  | get (connectionId : String) (now : Int)
  | update (connectionId : String) (updates : SessionManager.SessionUpdates) (now : Int)
  | cleanup (connectionId : String)
  | cleanupStale (now : Int)

/-- State transition of one operation (the thrown error of update leaves
the state unchanged). -/
def applyOp : StoreOp → ManagerState → ManagerState
  | .getOrCreate c f now, st => (SessionManager.getOrCreate c f now st).2
  | .get c now, st => (SessionManager.get c now st).2
  | .update c u now, st =>
      match SessionManager.update c u now st with
      | .ok r => r.2
      | .error _ => st
  | .cleanup c, st => SessionManager.cleanup c st
  | .cleanupStale now, st => SessionManager.cleanupStale now st

/-- The randomly minted id of getOrCreate does not collide with a stored
row; all other operations have no side condition. -/
def opFreshOk : StoreOp → ManagerState → Prop
  | .getOrCreate _ f _, st => lookupA st.sessions f = none
  | _, _ => True

/-- Claim C7: starting from the empty store, every session store operation
preserves the invariant that each connection id is bound to at most one
session id and every stored row is referenced by exactly one binding. -/
theorem sessionStore_invariant :
    StoreInv ManagerState.empty ∧
    ∀ (op : StoreOp) (st : ManagerState), StoreInv st → opFreshOk op st →
      StoreInv (applyOp op st) := by
  constructor
  · exact ⟨List.nodup_nil, List.nodup_nil, List.nodup_nil,
      fun s hm => absurd hm (List.not_mem_nil s),
      fun s hm => absurd hm (List.not_mem_nil s)⟩
  · intro op st hinv hfresh
    cases op with
    | getOrCreate c f now => exact getOrCreate_inv st c f now hinv hfresh
    | get c now => exact get_inv st c now hinv
    | update c u now =>
      simp only [applyOp]
      cases h : SessionManager.update c u now st with
      | ok r => exact update_inv st c u now hinv r.2 r.1 (by rw [h])
      | error e => exact hinv
    | cleanup c => exact cleanup_inv st c hinv
    | cleanupStale now => exact cleanupStale_inv st now hinv

/-- Claim C7 witness: the invariant holds of the empty store and is kept by
a concrete getOrCreate on it. -/
theorem sessionStore_invariant_witness :
    StoreInv ManagerState.empty ∧
    StoreInv (applyOp (.getOrCreate "conn-1" "sess-1" 5) ManagerState.empty) :=
  ⟨sessionStore_invariant.1,
   sessionStore_invariant.2 (.getOrCreate "conn-1" "sess-1" 5) ManagerState.empty
     sessionStore_invariant.1 rfl⟩

/-! ## Claim C6: stale session reclamation -/

theorem cleanup_conn_self (st : ManagerState) (x : String)
    (hnd : (keysOf st.connectionToSession).Nodup) :
    lookupA (SessionManager.cleanup x st).connectionToSession x = none := by
  cases hc : lookupA st.connectionToSession x with
  | none => simp [SessionManager.cleanup, hc]
  | some sid =>
    simp only [SessionManager.cleanup, hc]
    exact lookupA_delA_self _ _ hnd

theorem cleanup_conn_ne (st : ManagerState) (x c : String) (h : c ≠ x) :
    lookupA (SessionManager.cleanup x st).connectionToSession c =
      lookupA st.connectionToSession c := by
  cases hc : lookupA st.connectionToSession x with
  | none => simp [SessionManager.cleanup, hc]
  | some sid =>
    simp only [SessionManager.cleanup, hc]
    exact lookupA_delA_ne _ _ _ h

theorem foldl_cleanup_conn (L : List String) (st : ManagerState) (c : String)
    (hinv : StoreInv st) :
    lookupA (L.foldl (fun s x => SessionManager.cleanup x s) st).connectionToSession c =
      if c ∈ L then none else lookupA st.connectionToSession c := by
  induction L generalizing st with
  | nil => simp
  | cons x rest ih =>
    have hinv2 := cleanup_inv st x hinv
    have h2 := ih (SessionManager.cleanup x st) hinv2
    simp only [List.foldl_cons]
    rw [h2]
    by_cases hcx : c = x
    · subst hcx
      by_cases hr : c ∈ rest
      · simp [hr]
      · simp [hr, cleanup_conn_self st c hinv.1]
    · by_cases hr : c ∈ rest
      · simp [hr, hcx]
      · simp [hr, hcx, cleanup_conn_ne st x c hcx]

theorem foldl_cleanup_sessions (L : List String) (st : ManagerState) (sid : String)
    (hnd : L.Nodup) (hinv : StoreInv st) :
    lookupA (L.foldl (fun s x => SessionManager.cleanup x s) st).sessions sid =
      if ∃ c ∈ L, lookupA st.connectionToSession c = some sid then none
      else lookupA st.sessions sid := by
  induction L generalizing st with
  | nil => simp
  | cons x rest ih =>
    have hxrest : x ∉ rest := (List.nodup_cons.mp hnd).1
    have hndr : rest.Nodup := (List.nodup_cons.mp hnd).2
    have hinv2 := cleanup_inv st x hinv
    have h2 := ih (SessionManager.cleanup x st) hndr hinv2
    simp only [List.foldl_cons]
    rw [h2]
    cases hcx : lookupA st.connectionToSession x with
    | none =>
      have hst : SessionManager.cleanup x st = st := by
        simp [SessionManager.cleanup, hcx]
      rw [hst]
      have hiff : (∃ c ∈ x :: rest, lookupA st.connectionToSession c = some sid) ↔
          (∃ c ∈ rest, lookupA st.connectionToSession c = some sid) := by
        constructor
        · rintro ⟨c, hm, hl⟩
          rcases List.mem_cons.mp hm with h1 | h1
          · subst h1; rw [hcx] at hl; exact Option.noConfusion hl
          · exact ⟨c, h1, hl⟩
        · rintro ⟨c, hm, hl⟩
          exact ⟨c, List.mem_cons_of_mem _ hm, hl⟩
      rw [if_congr hiff rfl rfl]
    | some sidx =>
      have hclean : SessionManager.cleanup x st =
          ⟨delA st.sessions sidx, delA st.connectionToSession x⟩ := by
        simp [SessionManager.cleanup, hcx]
      have hconn_rest : ∀ c ∈ rest,
          lookupA (SessionManager.cleanup x st).connectionToSession c =
            lookupA st.connectionToSession c := by
        intro c hm
        exact cleanup_conn_ne st x c (fun he => hxrest (he ▸ hm))
      by_cases hsid : sid = sidx
      · subst hsid
        have hnone : lookupA (SessionManager.cleanup x st).sessions sid = none := by
          rw [hclean]
          exact lookupA_delA_self _ _ hinv.2.1
        have hpos : ∃ c ∈ x :: rest, lookupA st.connectionToSession c = some sid :=
          ⟨x, List.mem_cons_self _ _, hcx⟩
        rw [if_pos hpos]
        by_cases hex : ∃ c ∈ rest,
            lookupA (SessionManager.cleanup x st).connectionToSession c = some sid
        · rw [if_pos hex]
        · rw [if_neg hex, hnone]
      · have hsess : lookupA (SessionManager.cleanup x st).sessions sid =
            lookupA st.sessions sid := by
          rw [hclean]
          exact lookupA_delA_ne _ _ _ hsid
        have hiff : (∃ c ∈ rest,
              lookupA (SessionManager.cleanup x st).connectionToSession c = some sid) ↔
            (∃ c ∈ x :: rest, lookupA st.connectionToSession c = some sid) := by
          constructor
          · rintro ⟨c, hm, hl⟩
            exact ⟨c, List.mem_cons_of_mem _ hm, (hconn_rest c hm) ▸ hl⟩
          · rintro ⟨c, hm, hl⟩
            rcases List.mem_cons.mp hm with h1 | h1
            · subst h1
              rw [hcx] at hl
              exact absurd (Option.some.inj hl).symm hsid
            · exact ⟨c, h1, (hconn_rest c h1).symm ▸ hl⟩
        rw [if_congr hiff rfl rfl, hsess]

/-- The list of stale connections computed by cleanupStale. -/
def staleList (now : Int) (st : ManagerState) : List String :=
  (st.connectionToSession.filter (fun cs =>
    match lookupA st.sessions cs.2 with
    | some session => decide (now - session.last_activity > SessionManager.sessionTimeout)
    | none => false)).map Prod.fst

theorem cleanupStale_eq_foldl (now : Int) (st : ManagerState) :
    SessionManager.cleanupStale now st =
      (staleList now st).foldl (fun s x => SessionManager.cleanup x s) st := rfl

theorem staleList_nodup (now : Int) (st : ManagerState) (hinv : StoreInv st) :
    (staleList now st).Nodup :=
  hinv.1.sublist ((List.filter_sublist _).map Prod.fst)

theorem mem_staleList (now : Int) (st : ManagerState) (c sid : String) (row : SessionRow)
    (hinv : StoreInv st)
    (hc : lookupA st.connectionToSession c = some sid)
    (hs : lookupA st.sessions sid = some row) :
    c ∈ staleList now st ↔ SessionManager.sessionTimeout < now - row.last_activity := by
  have hpair : (c, sid) ∈ st.connectionToSession := mem_of_lookupA_eq_some _ _ _ hc
  constructor
  · intro hm
    obtain ⟨⟨k', v'⟩, hmf, hfst⟩ := List.mem_map.mp hm
    simp only at hfst
    have hmem := List.mem_of_mem_filter hmf
    have hpredt := List.of_mem_filter hmf
    rw [hfst] at hmem
    have heq : ((c, v') : String × String) = (c, sid) :=
      List.inj_on_of_nodup_map hinv.1 hmem hpair rfl
    have hv : v' = sid := congrArg Prod.snd heq
    subst hv
    simp only [hs] at hpredt
    exact of_decide_eq_true hpredt
  · intro hstale
    refine List.mem_map_of_mem Prod.fst (List.mem_filter.mpr ⟨hpair, ?_⟩)
    simp only [hs]
    exact decide_eq_true hstale

/-- Claim C6 counterexample: a session idle for just over 30 minutes, far
less than 7 days, is reclaimed together with its binding. -/
theorem cleanupStale_ttl_counterexample :
    ((1800001 : Int) - 0 ≤ 7 * 24 * 60 * 60 * 1000) ∧
    SessionManager.cleanupStale 1800001
      ⟨[("s1", ⟨"s1", none, Lang.auto, 0, none, 0, 0⟩)], [("c1", "s1")]⟩ =
      ⟨[], []⟩ :=
  ⟨by decide, rfl⟩

/-- Claim C6 (amended): the session TTL is 30 minutes, and for a store
satisfying the invariant a bound session is reclaimed by cleanupStale,
together with its connection binding, exactly when now minus its last
activity exceeds that timeout; every non-stale session and binding is left
untouched. -/
theorem cleanupStale_spec (st : ManagerState) (now : Int) (hinv : StoreInv st) :
    SessionManager.sessionTimeout = 30 * 60 * 1000 ∧
    ∀ (c sid : String) (row : SessionRow),
      lookupA st.connectionToSession c = some sid →
      lookupA st.sessions sid = some row →
      ((SessionManager.sessionTimeout < now - row.last_activity →
          lookupA (SessionManager.cleanupStale now st).connectionToSession c = none ∧
          lookupA (SessionManager.cleanupStale now st).sessions sid = none) ∧
       (¬ SessionManager.sessionTimeout < now - row.last_activity →
          lookupA (SessionManager.cleanupStale now st).connectionToSession c = some sid ∧
          lookupA (SessionManager.cleanupStale now st).sessions sid = some row)) := by
  refine ⟨rfl, ?_⟩
  intro c sid row hc hs
  have hconn := foldl_cleanup_conn (staleList now st) st c hinv
  have hsess := foldl_cleanup_sessions (staleList now st) st sid
    (staleList_nodup now st hinv) hinv
  have hmem := mem_staleList now st c sid row hinv hc hs
  have hexists : (∃ x ∈ staleList now st, lookupA st.connectionToSession x = some sid) ↔
      c ∈ staleList now st := by
    constructor
    · rintro ⟨x, hm, hl⟩
      have hpx : (x, sid) ∈ st.connectionToSession := mem_of_lookupA_eq_some _ _ _ hl
      have hpc : (c, sid) ∈ st.connectionToSession := mem_of_lookupA_eq_some _ _ _ hc
      have heq : ((x, sid) : String × String) = (c, sid) :=
        List.inj_on_of_nodup_map hinv.2.2.1 hpx hpc rfl
      have hxc : x = c := congrArg Prod.fst heq
      exact hxc ▸ hm
    · intro hm
      exact ⟨c, hm, hc⟩
  rw [cleanupStale_eq_foldl] at *
  constructor
  · intro hstale
    have hin : c ∈ staleList now st := hmem.mpr hstale
    constructor
    · rw [hconn, if_pos hin]
    · rw [hsess, if_pos (hexists.mpr hin)]
  · intro hfresh2
    have hnin : c ∉ staleList now st := fun hin => hfresh2 (hmem.mp hin)
    constructor
    · rw [hconn, if_neg hnin]
      exact hc
    · rw [hsess, if_neg (fun hex => hnin (hexists.mp hex))]
      exact hs

/-- Claim C6 witness: in a two-session store, the session idle for more
than 30 minutes is reclaimed with its binding. -/
theorem cleanupStale_spec_witness :
    lookupA (SessionManager.cleanupStale 1800001
      ⟨[("s1", ⟨"s1", none, Lang.auto, 0, none, 0, 0⟩),
        ("s2", ⟨"s2", none, Lang.auto, 0, none, 0, 1800001⟩)],
       [("c1", "s1"), ("c2", "s2")]⟩).connectionToSession "c1" = none ∧
    lookupA (SessionManager.cleanupStale 1800001
      ⟨[("s1", ⟨"s1", none, Lang.auto, 0, none, 0, 0⟩),
        ("s2", ⟨"s2", none, Lang.auto, 0, none, 0, 1800001⟩)],
       [("c1", "s1"), ("c2", "s2")]⟩).sessions "s1" = none :=
  ((cleanupStale_spec
      ⟨[("s1", ⟨"s1", none, Lang.auto, 0, none, 0, 0⟩),
        ("s2", ⟨"s2", none, Lang.auto, 0, none, 0, 1800001⟩)],
       [("c1", "s1"), ("c2", "s2")]⟩ 1800001
      (by refine ⟨?_, ?_, ?_, ?_, ?_⟩ <;> decide)).2
    "c1" "s1" ⟨"s1", none, Lang.auto, 0, none, 0, 0⟩ rfl rfl).1 (by decide)

/-! ## Claim C4: context coalescing -/

/-- The merge described by the claim (amended): a field of a supplied
context overrides the bound session value exactly when it passes its
well-formedness check, where an explicit null user_id or tenant clears the
value and budget_tokens goes through the Number() coercion. -/
def mergeContext (base : SessionContext) (raw : List (String × Json)) : SessionContext :=
  { session_id :=
      match lookupA raw "session_id" with
      | some (.str s) => if s.trim = "" then base.session_id else s.trim
      | _ => base.session_id
    user_id :=
      match lookupA raw "user_id" with
      | some (.str s) => if s.trim = "" then base.user_id else some s.trim
      | some .null => none
      | _ => base.user_id
    lang :=
      match lookupA raw "lang" with
      | some (.str s) =>
        if s = "en" then Lang.en
        else if s = "ar" then Lang.ar
        else if s = "auto" then Lang.auto
        else base.lang
      | _ => base.lang
    budget_tokens :=
      match (lookupA raw "budget_tokens").bind jsToNumber with
      | some n => if 0 ≤ n then n else base.budget_tokens
      | none => base.budget_tokens
    tenant :=
      match lookupA raw "tenant" with
      | some (.str s) => if s.trim = "" then base.tenant else some s.trim
      | some .null => none
      | _ => base.tenant }

theorem sessionIdAct_getD (raw : List (String × Json)) (b : String) :
    (sessionIdAct raw).getD b =
      match lookupA raw "session_id" with
      | some (.str s) => if s.trim = "" then b else s.trim
      | _ => b := by
  cases h : lookupA raw "session_id" with
  | none => simp [sessionIdAct, h]
  | some v =>
    cases v with
    | str s => by_cases ht : s.trim = "" <;> simp [sessionIdAct, h, ht]
    | null => simp [sessionIdAct, h]
    | bool b2 => simp [sessionIdAct, h]
    | num n => simp [sessionIdAct, h]
    | arr xs => simp [sessionIdAct, h]
    | obj fs => simp [sessionIdAct, h]

theorem userIdAct_getD (raw : List (String × Json)) (b : Option String) :
    (userIdAct raw).getD b =
      match lookupA raw "user_id" with
      | some (.str s) => if s.trim = "" then b else some s.trim
      | some .null => none
      | _ => b := by
  cases h : lookupA raw "user_id" with
  | none => simp [userIdAct, h]
  | some v =>
    cases v with
    | str s => by_cases ht : s.trim = "" <;> simp [userIdAct, h, ht]
    | null => simp [userIdAct, h]
    | bool b2 => simp [userIdAct, h]
    | num n => simp [userIdAct, h]
    | arr xs => simp [userIdAct, h]
    | obj fs => simp [userIdAct, h]

theorem langAct_getD (raw : List (String × Json)) (b : Lang) :
    (langAct raw).getD b =
      match lookupA raw "lang" with
      | some (.str s) =>
        if s = "en" then Lang.en
        else if s = "ar" then Lang.ar
        else if s = "auto" then Lang.auto
        else b
      | _ => b := by
  cases h : lookupA raw "lang" with
  | none => simp [langAct, h]
  | some v =>
    cases v with
    | str s =>
      by_cases h1 : s = "en"
      · simp [langAct, h, h1]
      · by_cases h2 : s = "ar"
        · simp [langAct, h, h1, h2]
        · by_cases h3 : s = "auto" <;> simp [langAct, h, h1, h2, h3]
    | null => simp [langAct, h]
    | bool b2 => simp [langAct, h]
    | num n => simp [langAct, h]
    | arr xs => simp [langAct, h]
    | obj fs => simp [langAct, h]

theorem budgetAct_getD (raw : List (String × Json)) (b : Int) :
    (budgetAct raw).getD b =
      match (lookupA raw "budget_tokens").bind jsToNumber with
      | some n => if 0 ≤ n then n else b
      | none => b := by
  cases h : lookupA raw "budget_tokens" with
  | none => simp [budgetAct, h]
  | some v =>
    cases hn : jsToNumber v with
    | none => simp [budgetAct, h, hn]
    | some n => by_cases hp : 0 ≤ n <;> simp [budgetAct, h, hn, hp]

theorem tenantAct_getD (raw : List (String × Json)) (b : Option String) :
    (tenantAct raw).getD b =
      match lookupA raw "tenant" with
      | some (.str s) => if s.trim = "" then b else some s.trim
      | some .null => none
      | _ => b := by
  cases h : lookupA raw "tenant" with
  | none => simp [tenantAct, h]
  | some v =>
    cases v with
    | str s => by_cases ht : s.trim = "" <;> simp [tenantAct, h, ht]
    | null => simp [tenantAct, h]
    | bool b2 => simp [tenantAct, h]
    | num n => simp [tenantAct, h]
    | arr xs => simp [tenantAct, h]
    | obj fs => simp [tenantAct, h]

/-- Claim C4 counterexample: the bound session holds budget 100; a supplied
context whose budget_tokens is JSON null (not a finite non-negative budget
value) nevertheless overrides the budget, because Number(null) is 0. -/
theorem coalesce_null_budget_counterexample :
    lookupA (⟨[("s1", ⟨"s1", none, Lang.auto, 100, none, 0, 0⟩)],
        [("c1", "s1")]⟩ : ManagerState).sessions "s1" =
      some ⟨"s1", none, Lang.auto, 100, none, 0, 0⟩ ∧
    jsToNumber Json.null = some 0 ∧
    (coalesceContext (some (.obj [("budget_tokens", Json.null)])) "c1" "f1" 5
        ⟨[("s1", ⟨"s1", none, Lang.auto, 100, none, 0, 0⟩)], [("c1", "s1")]⟩).map
      (fun rs => rs.1.budget_tokens) = .ok 0 :=
  ⟨rfl, rfl, rfl⟩

/-- Claim C4 (amended): an absent or non-object context is reconstructed
from the connection binding via ensureContext; a present context object
yields the merge in which each field overrides the bound value exactly when
it passes its check (non-empty trimmed strings; lang among en, ar, auto; a
budget whose Number() coercion is finite and non-negative, so that an
explicit null coerces to 0 and overrides; an explicit null user_id or
tenant clears the value), and the accepted overrides are persisted on the
bound session row with last_activity set to the call time. -/
theorem coalesceContext_spec (connectionId freshId : String) (now : Int)
    (st : ManagerState) :
    (∀ input : Option Json, (∀ fs : List (String × Json), input ≠ some (.obj fs)) →
      coalesceContext input connectionId freshId now st =
        .ok (ensureContext connectionId freshId now st)) ∧
    (∀ raw : List (String × Json),
      ∃ (ctx : SessionContext) (st2 : ManagerState),
        coalesceContext (some (.obj raw)) connectionId freshId now st = .ok (ctx, st2) ∧
        ctx = mergeContext (ensureContext connectionId freshId now st).1 raw ∧
        ∃ (sid : String) (row : SessionRow),
          lookupA st2.connectionToSession connectionId = some sid ∧
          lookupA st2.sessions sid = some row ∧
          row.session_id = ctx.session_id ∧ row.user_id = ctx.user_id ∧
          row.lang = ctx.lang ∧ row.budget_tokens = ctx.budget_tokens ∧
          row.tenant = ctx.tenant ∧ row.last_activity = now) := by
  obtain ⟨sid, hcn, hsn, hln⟩ := getOrCreate_post st connectionId freshId now
  constructor
  · intro input hne
    cases input with
    | none => rfl
    | some v =>
      cases v with
      | obj fs => exact absurd rfl (hne fs)
      | null => rfl
      | bool b => rfl
      | num n => rfl
      | str s => rfl
      | arr xs => rfl
  · intro raw
    have hmerge :
        (⟨(sessionIdAct raw).getD (ensureContext connectionId freshId now st).1.session_id,
          (userIdAct raw).getD (ensureContext connectionId freshId now st).1.user_id,
          (langAct raw).getD (ensureContext connectionId freshId now st).1.lang,
          (budgetAct raw).getD (ensureContext connectionId freshId now st).1.budget_tokens,
          (tenantAct raw).getD (ensureContext connectionId freshId now st).1.tenant⟩ :
            SessionContext) =
          mergeContext (ensureContext connectionId freshId now st).1 raw := by
      simp only [mergeContext, sessionIdAct_getD, userIdAct_getD, langAct_getD,
        budgetAct_getD, tenantAct_getD]
    cases hu : ((sessionIdAct raw).isSome || (userIdAct raw).isSome ||
        (langAct raw).isSome || (budgetAct raw).isSome || (tenantAct raw).isSome) with
    | true =>
      have hupd : SessionManager.update connectionId
          ⟨sessionIdAct raw, userIdAct raw, langAct raw, budgetAct raw, tenantAct raw⟩
          now (SessionManager.getOrCreate connectionId freshId now st).2 =
          .ok (SessionManager.applyUpdates
                (SessionManager.getOrCreate connectionId freshId now st).1
                ⟨sessionIdAct raw, userIdAct raw, langAct raw, budgetAct raw, tenantAct raw⟩
                now,
              { (SessionManager.getOrCreate connectionId freshId now st).2 with
                sessions := setA
                  (SessionManager.getOrCreate connectionId freshId now st).2.sessions sid
                  (SessionManager.applyUpdates
                    (SessionManager.getOrCreate connectionId freshId now st).1
                    ⟨sessionIdAct raw, userIdAct raw, langAct raw, budgetAct raw,
                      tenantAct raw⟩ now) }) := by
        simp [SessionManager.update, hcn, hsn]
      refine ⟨⟨(sessionIdAct raw).getD
            (ensureContext connectionId freshId now st).1.session_id,
          (userIdAct raw).getD (ensureContext connectionId freshId now st).1.user_id,
          (langAct raw).getD (ensureContext connectionId freshId now st).1.lang,
          (budgetAct raw).getD (ensureContext connectionId freshId now st).1.budget_tokens,
          (tenantAct raw).getD (ensureContext connectionId freshId now st).1.tenant⟩,
        { (SessionManager.getOrCreate connectionId freshId now st).2 with
          sessions := setA
            (SessionManager.getOrCreate connectionId freshId now st).2.sessions sid
            (SessionManager.applyUpdates
              (SessionManager.getOrCreate connectionId freshId now st).1
              ⟨sessionIdAct raw, userIdAct raw, langAct raw, budgetAct raw, tenantAct raw⟩
              now) },
        ?_, hmerge, sid,
        SessionManager.applyUpdates
          (SessionManager.getOrCreate connectionId freshId now st).1
          ⟨sessionIdAct raw, userIdAct raw, langAct raw, budgetAct raw, tenantAct raw⟩ now,
        ?_, ?_, rfl, rfl, rfl, rfl, rfl, rfl⟩
      · simp only [coalesceContext, ensureContext, hu, if_true, hupd, Except.map]
      · exact hcn
      · exact lookupA_setA_self _ _ _
    | false =>
      have e1 : sessionIdAct raw = none := by
        cases hx : sessionIdAct raw with
        | none => rfl
        | some v => rw [hx] at hu; simp at hu
      have e2 : userIdAct raw = none := by
        cases hx : userIdAct raw with
        | none => rfl
        | some v => rw [hx] at hu; simp at hu
      have e3 : langAct raw = none := by
        cases hx : langAct raw with
        | none => rfl
        | some v => rw [hx] at hu; simp at hu
      have e4 : budgetAct raw = none := by
        cases hx : budgetAct raw with
        | none => rfl
        | some v => rw [hx] at hu; simp at hu
      have e5 : tenantAct raw = none := by
        cases hx : tenantAct raw with
        | none => rfl
        | some v => rw [hx] at hu; simp at hu
      refine ⟨⟨(sessionIdAct raw).getD
            (ensureContext connectionId freshId now st).1.session_id,
          (userIdAct raw).getD (ensureContext connectionId freshId now st).1.user_id,
          (langAct raw).getD (ensureContext connectionId freshId now st).1.lang,
          (budgetAct raw).getD (ensureContext connectionId freshId now st).1.budget_tokens,
          (tenantAct raw).getD (ensureContext connectionId freshId now st).1.tenant⟩,
        (SessionManager.getOrCreate connectionId freshId now st).2,
        ?_, hmerge, sid,
        (SessionManager.getOrCreate connectionId freshId now st).1,
        hcn, hsn, ?_, ?_, ?_, ?_, ?_, hln⟩
      · simp only [coalesceContext, hu, Bool.false_eq_true, if_false]
        rfl
      · rw [e1]; rfl
      · rw [e2]; rfl
      · rw [e3]; rfl
      · rw [e4]; rfl
      · rw [e5]; rfl

/-- Claim C4 witness: an absent context on the empty store yields exactly
the freshly bound session context. -/
theorem coalesceContext_spec_witness :
    coalesceContext none "c1" "f1" 7 ManagerState.empty =
      .ok (ensureContext "c1" "f1" 7 ManagerState.empty) :=
  (coalesceContext_spec "c1" "f1" 7 ManagerState.empty).1 none
    (fun _ h => Option.noConfusion h)

/-! ## Claim C1: the third-eye/oversee input schema -/

/-- Line terminators of the ECMAScript regex dot (the pattern of the intent
property is written with a dot, which does not match these). -/
def isLineTerm (ch : Char) : Bool :=
  ch == '\n' || ch == '\r' || ch == ' ' || ch == ' '

/-- The string contains no line terminator. -/
def noLineTerm (s : String) : Bool :=
  s.data.all (fun ch => !(isLineTerm ch))

/-- The intent pattern of the schema: a full match of at least five dot
characters, so at least five characters and no line terminator (lengths are
counted in code points here; the strings involved are plain text). -/
def matchesIntentPat (s : String) : Bool :=
  decide (5 ≤ s.length) && noLineTerm s

/-- Per-property check of the context sub-schema (additionalProperties is
false there, so unknown keys fail). -/
def contextFieldOk (k : String) (v : Json) : Bool :=
  if k = "session_id" then (match v with | .str _ => true | _ => false)
  else if k = "user_id" then (match v with | .str _ => true | .null => true | _ => false)
  else if k = "tenant" then (match v with | .str _ => true | .null => true | _ => false)
  else if k = "lang" then
    (match v with | .str s => s = "auto" || s = "en" || s = "ar" | _ => false)
  else if k = "budget_tokens" then (match v with | .num n => decide (0 ≤ n) | _ => false)
  else false

/-- The context property: null or an object with the three required keys. -/
def contextOkJ : Json → Bool
  | .null => true
  | .obj gs =>
      gs.all (fun kv => contextFieldOk kv.1 kv.2) &&
      (keysOf gs).contains "session_id" && (keysOf gs).contains "lang" &&
      (keysOf gs).contains "budget_tokens"
  | _ => false

/-- The artifact kinds whose values the work sub-schema types as strings. -/
def workKnownKeys : List String := ["code", "plan", "draft", "requirements", "tests", "docs"]

/-- Per-property check of the work sub-schema (additionalProperties true). -/
def workFieldOk (k : String) (v : Json) : Bool :=
  if workKnownKeys.contains k then (match v with | .str _ => true | _ => false) else true

/-- The work property: an object with at least one property. -/
def workOkJ : Json → Bool
  | .obj fs => fs.all (fun kv => workFieldOk kv.1 kv.2) && decide (1 ≤ fs.length)
  | _ => false

/-- The context_info keys typed as strings. -/
def contextInfoStringKeys : List String :=
  ["project_type", "language", "target_audience", "performance_criteria"]

/-- Per-property check of the context_info sub-schema. -/
def contextInfoFieldOk (k : String) (v : Json) : Bool :=
  if contextInfoStringKeys.contains k then (match v with | .str _ => true | _ => false)
  else if k = "compliance_requirements" then
    (match v with
     | .arr xs => xs.all (fun x => match x with | .str _ => true | _ => false)
     | _ => false)
  else if k = "security_level" then
    (match v with
     | .str s => s = "low" || s = "medium" || s = "high" || s = "critical"
     | _ => false)
  else true

/-- The context_info property: an object with at least one property. -/
def contextInfoOkJ : Json → Bool
  | .obj fs => fs.all (fun kv => contextInfoFieldOk kv.1 kv.2) && decide (1 ≤ fs.length)
  | _ => false

/-- The payload sub-schema: exactly the keys intent, work and context_info,
all required; intent with minLength 5 and the dot pattern; work and
context_info with minProperties 1. -/
def payloadOkJ : Json → Bool
  | .obj ps =>
      (keysOf ps).all (fun k => k = "intent" || k = "work" || k = "context_info") &&
      (match lookupA ps "intent" with
       | some (.str s) => decide (5 ≤ s.length) && matchesIntentPat s
       | _ => false) &&
      (match lookupA ps "work" with
       | some w => workOkJ w
       | none => false) &&
      (match lookupA ps "context_info" with
       | some c => contextInfoOkJ c
       | none => false)
  | _ => false

/-- The full inputSchema of the third-eye/oversee tool: top level admits
only context, payload and reasoning_md, requires payload and reasoning_md,
and reasoning_md has minLength 10. -/
def overseeInputOk : Json → Bool
  | .obj fs =>
      (keysOf fs).all (fun k => k = "context" || k = "payload" || k = "reasoning_md") &&
      (match lookupA fs "context" with
       | some c => contextOkJ c
       | none => true) &&
      (match lookupA fs "payload" with
       | some p => payloadOkJ p
       | none => false) &&
      (match lookupA fs "reasoning_md" with
       | some (.str r) => decide (10 ≤ r.length)
       | _ => false)
  | _ => false

/-- An envelope of the declared shape, built from the four components the
claim quantifies over (context absent). -/
def mkOverseeInput (intent : String) (work contextInfo : List (String × Json))
    (reasoning : String) : Json :=
  .obj [("payload", .obj [("intent", .str intent), ("work", .obj work),
        ("context_info", .obj contextInfo)]),
        ("reasoning_md", .str reasoning)]

/-- Claim C1 counterexample: an envelope meeting all four thresholds whose
intent contains a newline is rejected, because the schema pattern for the
intent is written with the regex dot, which does not match line
terminators. -/
theorem oversee_schema_counterexample :
    (5 ≤ ("Check\nthis" : String).length) ∧
    ([("code", Json.str "x")] : List (String × Json)) ≠ [] ∧
    ([("language", Json.str "python")] : List (String × Json)) ≠ [] ∧
    (10 ≤ ("detailed reasoning text" : String).length) ∧
    overseeInputOk (mkOverseeInput "Check\nthis" [("code", Json.str "x")]
      [("language", Json.str "python")] "detailed reasoning text") = false := by
  exact ⟨by decide, List.cons_ne_nil _ _, List.cons_ne_nil _ _, by decide, by decide⟩

/-- Claim C1 (amended): for envelopes of the declared shape with well-typed
work and context_info values, the strict schema accepts exactly when intent
has at least 5 characters and contains no line terminator, work and
context_info are non-empty, and reasoning_md has at least 10 characters;
the rejection direction of the claim holds as stated, and acceptance
additionally requires the line-terminator-free intent imposed by the
schema pattern. -/
theorem oversee_schema_spec (intent reasoning : String)
    (work cinfo : List (String × Json))
    (hw : work.all (fun kv => workFieldOk kv.1 kv.2) = true)
    (hc : cinfo.all (fun kv => contextInfoFieldOk kv.1 kv.2) = true) :
    overseeInputOk (mkOverseeInput intent work cinfo reasoning) = true ↔
      (5 ≤ intent.length ∧ noLineTerm intent = true ∧ work ≠ [] ∧ cinfo ≠ [] ∧
        10 ≤ reasoning.length) := by
  simp [overseeInputOk, mkOverseeInput, payloadOkJ, workOkJ, contextInfoOkJ, lookupA,
    keysOf, matchesIntentPat, hw, hc, Bool.and_eq_true, decide_eq_true_eq,
    List.length_pos, Nat.succ_le_iff]
  tauto

/-- Claim C1 witness: a concrete well-formed envelope meeting the amended
conditions is accepted. -/
theorem oversee_schema_spec_witness :
    overseeInputOk (mkOverseeInput "Review the code" [("code", Json.str "x")]
      [("language", Json.str "python")] "detailed reasoning text") = true :=
  (oversee_schema_spec "Review the code" "detailed reasoning text"
    [("code", Json.str "x")] [("language", Json.str "python")]
    (by decide) (by decide)).mpr
    ⟨by decide, by decide, List.cons_ne_nil _ _, List.cons_ne_nil _ _, by decide⟩

/-! ## Claim C8: CSRF token validation -/

/-- Split a character list at every colon (the parse of the
token:timestamp:signature wire form). -/
def splitCh : List Char → List (List Char)
  | [] => [[]]
  | ch :: rest =>
    let r := splitCh rest
    if ch = ':' then [] :: r
    else
      match r with
      | g :: gs => (ch :: g) :: gs
      | [] => [[ch]]

/-- Split a string at every colon. -/
def splitColons (s : String) : List String :=
  (splitCh s.data).map (fun cs => String.mk cs)

theorem splitCh_no_colon (a : List Char) (h : ':' ∉ a) : splitCh a = [a] := by
  induction a with
  | nil => rfl
  | cons ch rest ih =>
    have hch : ¬ ch = ':' := fun he => h (he ▸ List.mem_cons_self _ _)
    have hrest : ':' ∉ rest := fun hm => h (List.mem_cons_of_mem _ hm)
    simp only [splitCh, if_neg hch, ih hrest]

theorem splitCh_append (a rest : List Char) (h : ':' ∉ a) :
    splitCh (a ++ ':' :: rest) = a :: splitCh rest := by
  induction a with
  | nil => simp [splitCh]
  | cons ch a2 ih =>
    have hch : ¬ ch = ':' := fun he => h (he ▸ List.mem_cons_self _ _)
    have ha2 : ':' ∉ a2 := fun hm => h (List.mem_cons_of_mem _ hm)
    simp only [List.cons_append, splitCh, if_neg hch]
    have ih2 : splitCh (a2.append (':' :: rest)) = a2 :: splitCh rest := ih ha2
    rw [ih2]

/-- Decimal parse of the timestamp component (int() on a digit string). -/
def parseTimestamp (s : String) : Option Nat :=
  if s.data ≠ [] && s.data.all Char.isDigit then
    some (s.data.foldl (fun acc ch => acc * 10 + (ch.toNat - 48)) 0)
  else none

/-- Modelled from the spec: generate_csrf_token of src/third_eye/csrf.py,
which is not part of the source tree; the report gives the form
token:timestamp:signature with signature the HMAC-SHA256 of
token:timestamp under the server secret. The HMAC primitive is abstracted
as the function argument mac. -/
def generate_csrf_token (mac : String → String → String)
    (secret token timestampStr : String) : String :=
  token ++ ":" ++ timestampStr ++ ":" ++ mac secret (token ++ ":" ++ timestampStr)

/-- The signature of the token verifies under the secret. -/
def csrfSignatureOk (mac : String → String → String) (secret : String) (t : String) : Bool :=
  match splitColons t with
  | [token, ts, sig] => sig == mac secret (token ++ ":" ++ ts)
  | _ => false

/-- The token timestamp parses and lies within 3600 seconds of now. -/
def csrfTimestampOk (now : Int) (t : String) : Bool :=
  match splitColons t with
  | [_, ts, _] =>
    match parseTimestamp ts with
    | some n => decide ((now - (n : Int)).natAbs ≤ 3600)
    | none => false
  | _ => false

/-- Modelled from the spec: csrf_protect of src/third_eye/csrf.py, which is
not part of the source tree. A state-changing admin request is rejected
with E_CSRF_FAILED unless the X-CSRF-Token header equals the CSRF cookie
byte for byte, the HMAC signature verifies, and the timestamp is within
3600 seconds of now. -/
def csrf_protect (mac : String → String → String) (secret : String) (now : Int)
    (headerToken cookieToken : String) : Except String Unit :=
  if headerToken ≠ cookieToken then .error "E_CSRF_FAILED"
  else
    match splitColons headerToken with
    | [token, ts, sig] =>
      if sig = mac secret (token ++ ":" ++ ts) then
        match parseTimestamp ts with
        | some n =>
          if (now - (n : Int)).natAbs ≤ 3600 then .ok ()
          else .error "E_CSRF_FAILED"
        | none => .error "E_CSRF_FAILED"
      else .error "E_CSRF_FAILED"
    | _ => .error "E_CSRF_FAILED"

/-- Claim C8: a request is rejected with E_CSRF_FAILED exactly when the
header and cookie differ, the signature does not verify, or the timestamp
is outside the 3600 second window; otherwise it passes, and in particular a
freshly generated token submitted as both header and cookie within the
window passes. -/
theorem csrf_protect_spec (mac : String → String → String) (secret : String) (now : Int)
    (headerToken cookieToken : String) :
    (csrf_protect mac secret now headerToken cookieToken = .error "E_CSRF_FAILED" ↔
      (headerToken ≠ cookieToken ∨ csrfSignatureOk mac secret headerToken = false ∨
        csrfTimestampOk now headerToken = false)) ∧
    (csrf_protect mac secret now headerToken cookieToken = .ok () ↔
      (headerToken = cookieToken ∧ csrfSignatureOk mac secret headerToken = true ∧
        csrfTimestampOk now headerToken = true)) ∧
    (∀ (token tsStr : String) (n : Nat), ':' ∉ token.data → ':' ∉ tsStr.data →
      ':' ∉ (mac secret (token ++ ":" ++ tsStr)).data →
      parseTimestamp tsStr = some n → (now - (n : Int)).natAbs ≤ 3600 →
      csrf_protect mac secret now (generate_csrf_token mac secret token tsStr)
        (generate_csrf_token mac secret token tsStr) = .ok ()) := by
  refine ⟨?_, ?_, ?_⟩
  · by_cases hhc : headerToken = cookieToken
    · subst hhc
      cases hsp : splitColons headerToken with
      | nil => simp [csrf_protect, csrfSignatureOk, csrfTimestampOk, hsp]
      | cons a l1 =>
        cases l1 with
        | nil => simp [csrf_protect, csrfSignatureOk, csrfTimestampOk, hsp]
        | cons b l2 =>
          cases l2 with
          | nil => simp [csrf_protect, csrfSignatureOk, csrfTimestampOk, hsp]
          | cons c l3 =>
            cases l3 with
            | cons d l4 =>
              simp [csrf_protect, csrfSignatureOk, csrfTimestampOk, hsp]
            | nil =>
              by_cases hsg : c = mac secret (a ++ ":" ++ b)
              · cases htn : parseTimestamp b with
                | none =>
                  simp [csrf_protect, csrfSignatureOk, csrfTimestampOk, hsp, hsg, htn]
                | some n =>
                  by_cases habs : (now - (n : Int)).natAbs ≤ 3600 <;>
                    simp [csrf_protect, csrfSignatureOk, csrfTimestampOk, hsp, hsg,
                      htn, habs]
              · simp [csrf_protect, csrfSignatureOk, csrfTimestampOk, hsp, hsg]
    · simp [csrf_protect, hhc]
  · by_cases hhc : headerToken = cookieToken
    · subst hhc
      cases hsp : splitColons headerToken with
      | nil => simp [csrf_protect, csrfSignatureOk, csrfTimestampOk, hsp]
      | cons a l1 =>
        cases l1 with
        | nil => simp [csrf_protect, csrfSignatureOk, csrfTimestampOk, hsp]
        | cons b l2 =>
          cases l2 with
          | nil => simp [csrf_protect, csrfSignatureOk, csrfTimestampOk, hsp]
          | cons c l3 =>
            cases l3 with
            | cons d l4 =>
              simp [csrf_protect, csrfSignatureOk, csrfTimestampOk, hsp]
            | nil =>
              by_cases hsg : c = mac secret (a ++ ":" ++ b)
              · cases htn : parseTimestamp b with
                | none =>
                  simp [csrf_protect, csrfSignatureOk, csrfTimestampOk, hsp, hsg, htn]
                | some n =>
                  by_cases habs : (now - (n : Int)).natAbs ≤ 3600 <;>
                    simp [csrf_protect, csrfSignatureOk, csrfTimestampOk, hsp, hsg,
                      htn, habs]
              · simp [csrf_protect, csrfSignatureOk, csrfTimestampOk, hsp, hsg]
    · simp [csrf_protect, hhc]
  · intro token tsStr n h1 h2 h3 h4 h5
    have hdata : (generate_csrf_token mac secret token tsStr).data =
        token.data ++ ':' :: (tsStr.data ++ ':' ::
          (mac secret (token ++ ":" ++ tsStr)).data) := by
      simp [generate_csrf_token, String.data_append]
    have hsplit : splitColons (generate_csrf_token mac secret token tsStr) =
        [token, tsStr, mac secret (token ++ ":" ++ tsStr)] := by
      unfold splitColons
      rw [hdata, splitCh_append _ _ h1, splitCh_append _ _ h2, splitCh_no_colon _ h3]
      rfl
    simp [csrf_protect, hsplit, h4, h5]

/-- Claim C8 witness: a concrete token generated under a toy MAC passes the
check when submitted as both header and cookie within the window. -/
theorem csrf_protect_spec_witness :
    csrf_protect (fun _ _ => "X") "secret" 150
      (generate_csrf_token (fun _ _ => "X") "secret" "tok" "100")
      (generate_csrf_token (fun _ _ => "X") "secret" "tok" "100") = .ok () :=
  (csrf_protect_spec (fun _ _ => "X") "secret" 150
      (generate_csrf_token (fun _ _ => "X") "secret" "tok" "100")
      (generate_csrf_token (fun _ _ => "X") "secret" "tok" "100")).2.2
    "tok" "100" 100 (by decide) (by decide) (by decide) (by decide) (by decide)
